import Mathlib

/-!
Verification of the vmpay-extraction pipeline: a shallow embedding of the
fetch/retry logic, pagination loop, backfill chunk planner, consolidation
(dedup) pass, schema inference, and the stage-then-merge upsert protocol,
with theorems settling the specification claims.
-/

/-! ## HTTP model (utils/fetch.py, extract_historical_cashless.py)

A response oracle maps the attempt index to the outcome of that outbound
request.  requests-level exceptions (connection failures and the HTTPError
raised by raise_for_status on any 4xx/5xx status) are the constructors
other than ok. -/

inductive HttpResponse where
  | ok (body : List Nat)
  | clientError (code : Nat)
  | serverError (code : Nat)
  | networkFailure
deriving DecidableEq

/-- True exactly when the requests library raises a RequestException for
this outcome: connection failures and the HTTPError produced by
raise_for_status on 4xx/5xx statuses. -/
def raisesRequestException : HttpResponse → Bool
  | .ok _ => false
  | .clientError _ => true
  | .serverError _ => true
  | .networkFailure => true

def responseBody : HttpResponse → List Nat
  | .ok b => b
  | _ => []

/-- Embedding of the retry loop of extract_historical_cashless.fetch_cashless_data:
for attempt in range(3): try request; on RequestException sleep 2**attempt and
retry; after the loop raise RuntimeError (modelled as none).  The result carries
(parsed body if any, number of outbound requests, list of sleep durations). -/
def fetchRetryLoop (oracle : Nat → HttpResponse) (attempt remaining requests : Nat)
    (sleeps : List Nat) : Option (List Nat) × Nat × List Nat :=
  match remaining with
  | 0 => (none, requests, sleeps)
  | r + 1 =>
    let resp := oracle attempt
    if raisesRequestException resp then
      fetchRetryLoop oracle (attempt + 1) r (requests + 1) (sleeps ++ [2 ^ attempt])
    else
      (some (responseBody resp), requests + 1, sleeps)

/-- Embedding of extract_historical_cashless.fetch_cashless_data (the retry
wrapper around one page request): three attempts starting at attempt 0. -/
def fetch_cashless_data_hist (oracle : Nat → HttpResponse) :
    Option (List Nat) × Nat × List Nat :=
  fetchRetryLoop oracle 0 3 0 []

/-- Embedding of cloud_function/utils/fetch.fetch_from_endpoint: a single GET,
raise_for_status, json() — no retry of any kind.  Returns (body if the request
succeeded, number of outbound requests). -/
def fetch_from_endpoint (oracle : Nat → HttpResponse) : Option (List Nat) × Nat :=
  let resp := oracle 0
  if raisesRequestException resp then (none, 1) else (some (responseBody resp), 1)

/-! ## Paginator (cloud_function/daily_fetch.fetch_cashless_data,
extract_historical_cashless.extract_range)

The API is modelled as a function from the 1-based page number to the page
contents; a server holding the record list l serves page p as the records
(p-1)*100 .. p*100 (fetchPage).  The while-True loop is embedded with fuel;
the theorems show the result is independent of the fuel once it is large
enough, so the fuel is only a termination device. -/

def fetchPage (l : List Nat) (page : Nat) : List Nat :=
  (l.drop ((page - 1) * 100)).take 100

/-- Embedding of the pagination while-loop shared by
daily_fetch.fetch_cashless_data and extract_historical_cashless.extract_range:
fetch page; stop if empty; extend the accumulator; stop if the page is shorter
than 100; else advance the page by 1.  Returns (records, requests issued). -/
def paginateLoop (api : Nat → List Nat) (fuel page : Nat) (acc : List Nat)
    (requests : Nat) : List Nat × Nat :=
  match fuel with
  | 0 => (acc, requests)
  | f + 1 =>
    let data := api page
    if data.isEmpty then (acc, requests + 1)
    else if data.length < 100 then (acc ++ data, requests + 1)
    else paginateLoop api f (page + 1) (acc ++ data) (requests + 1)

/-- Embedding of the full pagination driver: start at page 1 with an empty
accumulator and no requests issued. -/
def fetch_cashless_data_daily (api : Nat → List Nat) (fuel : Nat) : List Nat × Nat :=
  paginateLoop api fuel 1 [] 0

/-! ## Chunk planner (extract_historical_cashless.generate_date_ranges)

Datetimes are modelled as integers (any fixed time unit); timedelta(days=step_days)
is the integer step.  The while loop is embedded as well-founded recursion; the
source loop terminates exactly when the step is positive, so the positivity of
the step is part of the recursion guard. -/

def generate_date_ranges (current end_ step : Int) : List (Int × Int) :=
  if _h : 0 < step ∧ current < end_ then
    (current, min (current + step) end_) :: generate_date_ranges (current + step) end_ step
  else []
termination_by (end_ - current).toNat
decreasing_by
  simp_wf
  omega

/-! ## Consolidator (merge/merge_cashless_facts_only.py)

A chunk artifact is a list of rows; each row carries the canonical id
(transaction_id, renamed from the API id), the recency timestamp
(occurred_at, as an integer), and the remaining column values (payload).
The script concatenates all chunk files, sorts ascending by occurred_at with
pandas sort_values under its default kind (quicksort, which is not a stable
sort), and drops duplicate transaction_ids keeping the last occurrence.
Because the equal-key order of the unstable sort is unspecified, sort_values
is embedded by its contract — IsSortValuesResult, an ascending permutation
of the input — and the consolidation theorems quantify over every list
satisfying that contract rather than fixing one sorting algorithm. -/

structure CashlessRow where
  transaction_id : String
  occurred_at : Int
  payload : String
deriving DecidableEq

/-- SortedRows is the ascending-by-recency invariant established by the sort. -/
def SortedRows (l : List CashlessRow) : Prop :=
  List.Pairwise (fun a b : CashlessRow => a.occurred_at ≤ b.occurred_at) l

/-- Contract of combined.sort_values(by="occurred_at") with the default
kind="quicksort": the result is some permutation of the input that is
ascending in the recency key.  The relative order of rows with equal
occurred_at values is NOT part of the contract (quicksort is unstable), so
any list satisfying this predicate is an admissible output of the source's
sort call. -/
def IsSortValuesResult (input sorted : List CashlessRow) : Prop :=
  List.Perm sorted input ∧ SortedRows sorted

/-- Embedding of combined.drop_duplicates(subset=["transaction_id"], keep="last"):
keep a row exactly when no later row carries the same transaction_id. -/
def drop_duplicates_keep_last : List CashlessRow → List CashlessRow
  | [] => []
  | r :: rest =>
    if rest.any (fun s => s.transaction_id == r.transaction_id) then
      drop_duplicates_keep_last rest
    else
      r :: drop_duplicates_keep_last rest

/-- Embedding of the tail of the consolidation script, applied to whatever
row order sort_values produced: drop duplicate ids keeping the last row and
report the number of dropped duplicate rows. -/
def consolidate_from (sorted : List CashlessRow) : List CashlessRow × Nat :=
  let deduped := drop_duplicates_keep_last sorted
  (deduped, sorted.length - deduped.length)

/-- Helper turning the optional last element into a zero-or-one-element list. -/
def lastSingleton (o : Option CashlessRow) : List CashlessRow :=
  match o with
  | none => []
  | some r => [r]

/-! ## Schema inference (cloud_function/utils/load_bigquery.py,
load/load_to_bigquery.py)

A dataframe is modelled as its list of (column name, pandas dtype) pairs;
the configuration dictionaries are embedded as functions from the table name
to the list of configured column names (dict.get with an empty default). -/

inductive PandasDType where
  | int64
  | float64
  | boolean
  | datetime64
  | object64
deriving DecidableEq

/-- Embedding of TABLE_STRING_COLUMNS_CF (keys only; every value is str). -/
def TABLE_STRING_COLUMNS_CF : String → List String
  | "products" =>
    ["id", "type", "manufacturer_id", "category_id", "supply_category_id", "name",
     "upc_code", "barcode", "external_id", "image", "tags", "additional_barcodes",
     "ncm_code", "cest_code", "url", "inventories", "packing_id", "packing_name"]
  | "categories" => ["id", "name"]
  | "clients" =>
    ["id", "name", "corporate_name", "cpf", "cnpj", "nif", "contact_name",
     "contact_phone", "contact_email", "notes", "legal_type", "main_location_id"]
  | "locations" =>
    ["id", "client_id", "name", "phone", "street", "number", "complement",
     "neighborhood", "city", "country", "state", "zip_code"]
  | "manufacturers" => ["id", "name"]
  | "cashless" =>
    ["transaction_id", "point_of_sale", "kind", "status", "installation_id",
     "planogram_item_id", "equipment_id", "equipment_label_number",
     "equipment_serial_number", "masked_card_number", "issuer_authorization_code",
     "order_id", "cancel_reason_detailed", "physical_locator", "place",
     "planogram_item", "cashless_error_friendly", "client_id", "client_name",
     "location_id", "location_name", "machine_id", "machine_asset_number",
     "machine_model_id", "machine_model_name", "good_id", "good_type",
     "good_category_id", "good_manufacturer_id", "good_name", "good_upc_code",
     "good_barcode", "eft_provider_id", "eft_provider_name", "eft_authorizer_id",
     "eft_authorizer_name", "eft_card_brand_id", "eft_card_brand_name",
     "eft_card_type_id", "eft_card_type_name",
     "cashless_error_complete_description", "payment_authorizer_id",
     "payment_authorizer_name", "combo_items"]
  | _ => []

/-- Embedding of TABLE_DATE_COLUMNS_CF. -/
def TABLE_DATE_COLUMNS_CF : String → List String
  | "products" => ["created_at", "updated_at"]
  | "cashless" => ["occurred_at"]
  | _ => []

/-- Embedding of NUMERIC_COLUMNS_CF (a single global list). -/
def NUMERIC_COLUMNS_CF : List String :=
  ["request_number", "cost_price", "quantity", "value", "discount_value",
   "weight", "default_price", "vendible_balance", "packing_quantity"]

/-- Per-column schema type resolution of build_bq_schema_cf: explicit string
set first, then explicit date set (TIMESTAMP only when the column dtype is
datetime), then the global numeric list (INTEGER for int dtype, else FLOAT),
and finally dtype sniffing with a STRING default. -/
def build_bq_field_type_cf (table_name column_name : String) (dtype : PandasDType) : String :=
  if (TABLE_STRING_COLUMNS_CF table_name).contains column_name then "STRING"
  else if (TABLE_DATE_COLUMNS_CF table_name).contains column_name then
    if dtype = PandasDType.datetime64 then "TIMESTAMP" else "STRING"
  else if NUMERIC_COLUMNS_CF.contains column_name then
    if dtype = PandasDType.int64 then "INTEGER"
    else if dtype = PandasDType.float64 then "FLOAT"
    else "FLOAT"
  else
    if dtype = PandasDType.int64 then "INTEGER"
    else if dtype = PandasDType.float64 then "FLOAT"
    else if dtype = PandasDType.boolean then "BOOLEAN"
    else if dtype = PandasDType.datetime64 then "TIMESTAMP"
    else "STRING"

/-- Embedding of build_bq_schema_cf: one SchemaField (name, type) per column. -/
def build_bq_schema_cf (df : List (String × PandasDType)) (table_name : String) :
    List (String × String) :=
  df.map (fun c => (c.1, build_bq_field_type_cf table_name c.1 c.2))

/-- Embedding of TABLE_STRING_COLUMNS of the local load script (keys only). -/
def TABLE_STRING_COLUMNS : String → List String
  | "categories" => ["id", "name"]
  | "clients" =>
    ["id", "name", "corporate_name", "cpf", "cnpj", "nif", "contact_name",
     "contact_phone", "contact_email", "notes", "legal_type", "main_location_id"]
  | "locations" =>
    ["id", "client_id", "name", "phone", "street", "number", "complement",
     "neighborhood", "city", "country", "state", "zip_code"]
  | "manufacturers" => ["id", "name"]
  | "products" =>
    ["id", "type", "manufacturer_id", "category_id", "supply_category_id", "name",
     "upc_code", "barcode", "external_id", "image", "tags", "additional_barcodes",
     "ncm_code", "cest_code", "url", "inventories", "packing_id", "packing_name"]
  | "cashless" =>
    ["transaction_id", "point_of_sale", "kind", "status", "installation_id",
     "planogram_item_id", "equipment_id", "equipment_label_number",
     "equipment_serial_number", "masked_card_number", "issuer_authorization_code",
     "order_id", "cancel_reason_detailed", "physical_locator", "place",
     "planogram_item", "cashless_error_friendly", "client_id", "client_name",
     "location_id", "location_name", "machine_id", "machine_asset_number",
     "machine_model_id", "machine_model_name", "good_id", "good_type",
     "good_category_id", "good_manufacturer_id", "good_name", "good_upc_code",
     "good_barcode", "eft_provider_id", "eft_provider_name", "eft_authorizer_id",
     "eft_authorizer_name", "eft_card_brand_id", "eft_card_brand_name",
     "eft_card_type_id", "eft_card_type_name",
     "cashless_error_complete_description", "payment_authorizer_id",
     "payment_authorizer_name"]
  | _ => []

/-- Embedding of TABLE_NUMERIC_COLUMNS of the local load script. -/
def TABLE_NUMERIC_COLUMNS : String → List String
  | "products" => ["weight", "cost_price", "default_price", "vendible_balance", "packing_quantity"]
  | "locations" => ["latitude", "longitude"]
  | "cashless" =>
    ["number_of_payments", "quantity", "value", "discount_value", "cost_price", "request_number"]
  | _ => []

/-- Per-column schema type resolution of build_bq_schema (local load script):
explicit string set first, then the per-table numeric list (always FLOAT64),
then dtype sniffing; iso_like records whether every non-null value of the
column matches the ISO-8601 timestamp regex. -/
def build_bq_field_type (table_name column_name : String) (dtype : PandasDType)
    (iso_like : Bool) : String :=
  if (TABLE_STRING_COLUMNS table_name).contains column_name then "STRING"
  else if (TABLE_NUMERIC_COLUMNS table_name).contains column_name then "FLOAT64"
  else
    if dtype = PandasDType.int64 then "INTEGER"
    else if dtype = PandasDType.float64 then "FLOAT64"
    else if dtype = PandasDType.boolean then "BOOLEAN"
    else if dtype = PandasDType.datetime64 ∨ iso_like = true then "TIMESTAMP"
    else "STRING"

/-- Embedding of build_bq_schema: one (name, type) per column; the Bool in
each column triple is the iso_like flag for the sniffing tier. -/
def build_bq_schema (df : List (String × PandasDType × Bool)) (table_name : String) :
    List (String × String) :=
  df.map (fun c => (c.1, build_bq_field_type table_name c.1 c.2.1 c.2.2))

/-! ## Daily sync window (cloud_function/daily_fetch.main)

Timestamps are integers in seconds since the epoch (UTC).  In the source,
with no date argument the start is datetime.now(utc) - timedelta(days=1)
(the raw invocation instant minus 24 hours, not truncated to midnight);
with a date argument the start is the parsed timestamp.  The end is always
start + one day. -/

def compute_daily_window (date_arg : Option Int) (now : Int) : Int × Int :=
  let start := match date_arg with
    | some d => d
    | none => now - 86400
  (start, start + 86400)

/-- Modelled from the spec: truncation of a timestamp to 00:00 UTC of its day. -/
def midnightUTC (t : Int) : Int := t - t % 86400

/-- Modelled from the spec: the window the spec asserts for daily mode with
no explicit date, namely yesterday 00:00 UTC to today 00:00 UTC. -/
def spec_daily_window (now : Int) : Int × Int :=
  (midnightUTC now - 86400, midnightUTC now)

/-! ## Upsert engine (cloud_function/utils/load_bigquery.upload_dataframe_to_bigquery,
load/load_to_bigquery.upload_and_merge_table)

The warehouse interaction is modelled as the trace of BigQuery side effects
the call performs, in order.  The dataframe is modelled by its column-name
list (the in-dataframe value coercions of steps 2-5 touch no warehouse state
and do not add or remove columns, so they are identity on this model).  The
outcome of the MERGE query job is an input (merge_succeeds); the source
catches the MERGE exception, logs, and re-raises, and only afterwards —
on the non-raising path — deletes the staging table. -/

inductive BQAction where
  | createTableIfNotExists (table : String)
  | loadStagingTruncate (table : String)
  | mergeInto (final staging : String)
  | deleteTable (table : String)
deriving DecidableEq

def sanitizeChar (c : Char) : Char :=
  if c = '.' then '_' else c

/-- Embedding of the dot-to-underscore renaming applied to one column name. -/
def sanitize_name (s : String) : String :=
  String.mk (s.data.map sanitizeChar)

/-- Embedding of sanitize_columns: rename every column. -/
def sanitize_columns (cols : List String) : List String :=
  cols.map sanitize_name

/-- Embedding of upload_dataframe_to_bigquery (cloud function): sanitize the
column names and the id column, validate the id column, then create the final
table if missing, load the truncated staging table, run the MERGE, and delete
the staging table only when the MERGE did not raise. -/
def upload_dataframe_to_bigquery (cols : List String) (table_name id_column : String)
    (merge_succeeds : Bool) : Except String Unit × List BQAction :=
  let cols := sanitize_columns cols
  let id_column := sanitize_name id_column
  if cols.contains id_column = false then
    (Except.error "missing id column", [])
  else
    let temp_table := "temp_" ++ table_name
    let actions := [BQAction.createTableIfNotExists table_name,
                    BQAction.loadStagingTruncate temp_table,
                    BQAction.mergeInto table_name temp_table]
    if merge_succeeds then
      (Except.ok (), actions ++ [BQAction.deleteTable temp_table])
    else
      (Except.error "merge failed", actions)

/-- Embedding of upload_and_merge_table (local load script): identical
warehouse control flow — id-column validation before any warehouse action,
MERGE re-raise before the staging delete. -/
def upload_and_merge_table (csv_cols : List String) (table_name id_column : String)
    (merge_succeeds : Bool) : Except String Unit × List BQAction :=
  let cols := sanitize_columns csv_cols
  let id_column := id_column
  if cols.contains id_column = false then
    (Except.error "missing id column", [])
  else
    let temp_table := "temp_" ++ table_name
    let actions := [BQAction.createTableIfNotExists table_name,
                    BQAction.loadStagingTruncate temp_table,
                    BQAction.mergeInto table_name temp_table]
    if merge_succeeds then
      (Except.ok (), actions ++ [BQAction.deleteTable temp_table])
    else
      (Except.error "merge failed", actions)

/-! ## Backfill persistence (extract_historical_cashless.save_data_as_csv and
the __main__ backfill loop)

Chunk dates are modelled as naturals; the artifact store is modelled as the
list of existing file names.  save_data_as_csv returns the files it writes:
none when the fetched data is empty (the early return), the deterministic
chunk file name otherwise. -/

def OUTPUT_DIR : String := "data/historical_cashless"

def chunk_filename (start_date end_date : Nat) : String :=
  OUTPUT_DIR ++ "/cashless_" ++ toString start_date ++ "_to_" ++ toString end_date ++ ".csv"

def save_data_as_csv (data : List Nat) (start_date end_date : Nat) : List String :=
  if data.isEmpty then [] else [chunk_filename start_date end_date]

/-- Embedding of one iteration of the __main__ backfill loop for one window:
skip (no fetch, nothing written) when the chunk file already exists, else
fetch and save.  Returns (whether extract_range was invoked, files written). -/
def backfill_chunk (existing : List String) (fetch_result : List Nat)
    (start_date end_date : Nat) : Bool × List String :=
  if existing.contains (chunk_filename start_date end_date) then
    (false, [])
  else
    (true, save_data_as_csv fetch_result start_date end_date)

/-! ## Lemmas and claim theorems -/

/-- Shared helper: when every attempt raises a RequestException, the retry
wrapper issues exactly 3 requests, sleeps 1s, 2s, 4s, and raises (none). -/
theorem fetchRetryLoop_all_fail (oracle : Nat → HttpResponse)
    (h : ∀ n, raisesRequestException (oracle n) = true) :
    fetch_cashless_data_hist oracle = (none, 3, [1, 2, 4]) := by
  simp [fetch_cashless_data_hist, fetchRetryLoop, h 0, h 1, h 2]

theorem fetchPage_succ (l : List Nat) (p : Nat) (hp : 1 ≤ p) :
    fetchPage l (p + 1) = fetchPage (l.drop 100) p := by
  unfold fetchPage
  rw [List.drop_drop]
  congr 2
  omega

theorem paginateLoop_shift (l : List Nat) :
    ∀ (fuel p : Nat), 1 ≤ p → ∀ (acc : List Nat) (r : Nat),
    paginateLoop (fetchPage l) fuel (p + 1) acc r
      = paginateLoop (fetchPage (l.drop 100)) fuel p acc r := by
  intro fuel
  induction fuel with
  | zero => intro p hp acc r; rfl
  | succ f ih =>
    intro p hp acc r
    simp only [paginateLoop, fetchPage_succ l p hp]
    split
    · rfl
    · split
      · rfl
      · exact ih (p + 1) (by omega) _ _

/-- Main pagination lemma: serving the record list l, with any fuel large
enough, the loop collects exactly l and issues exactly l.length / 100 + 1
page requests. -/
theorem paginateLoop_fetchPage :
    ∀ (fuel : Nat) (l acc : List Nat) (r : Nat), l.length < fuel * 100 →
    paginateLoop (fetchPage l) fuel 1 acc r = (acc ++ l, r + (l.length / 100 + 1)) := by
  intro fuel
  induction fuel with
  | zero => intro l acc r h; omega
  | succ f ih =>
    intro l acc r h
    have hpage1 : fetchPage l 1 = l.take 100 := by
      simp [fetchPage]
    by_cases hnil : l = []
    · subst hnil
      simp [paginateLoop, hpage1]
    · by_cases hlen : l.length < 100
      · have htake : l.take 100 = l := List.take_of_length_le (by omega)
        have : l.length / 100 = 0 := Nat.div_eq_of_lt hlen
        simp [paginateLoop, hpage1, htake, hnil, hlen, this, List.isEmpty_iff]
      · have h100 : 100 ≤ l.length := by omega
        have htlen : (l.take 100).length = 100 := by
          simp [List.length_take]; omega
        have hne : (l.take 100).isEmpty = false := by
          cases hl : l.take 100 with
          | nil => rw [hl] at htlen; simp at htlen
          | cons a t => rfl
        simp only [paginateLoop, hpage1, hne, htlen, if_false]
        rw [if_neg (show ¬ (100 : Nat) < 100 by omega)]
        rw [paginateLoop_shift l f 1 (le_refl 1)]
        have hdlen : (l.drop 100).length < f * 100 := by
          simp [List.length_drop]; omega
        rw [ih (l.drop 100) (acc ++ l.take 100) (r + 1) hdlen]
        rw [List.append_assoc, List.take_append_drop]
        have hlen2 : (l.drop 100).length = l.length - 100 := by
          simp [List.length_drop]
        rw [hlen2]
        have harith : r + 1 + ((l.length - 100) / 100 + 1) = r + (l.length / 100 + 1) := by
          omega
        rw [harith]
        simp

theorem generate_date_ranges_eq_pos {s e step : Int} (h1 : 0 < step) (h2 : s < e) :
    generate_date_ranges s e step
      = (s, min (s + step) e) :: generate_date_ranges (s + step) e step := by
  rw [generate_date_ranges]
  rw [dif_pos (And.intro h1 h2)]

theorem generate_date_ranges_eq_nil {s e step : Int} (h2 : ¬ s < e) :
    generate_date_ranges s e step = [] := by
  rw [generate_date_ranges]
  rw [dif_neg (by tauto)]

/-- Every produced window starts no earlier than the range start, is nonempty,
ends within the range, has length at most the step, and has length exactly the
step unless it ends at the range end. -/
theorem generate_date_ranges_mem :
    ∀ (s e step : Int), 0 < step →
    ∀ w ∈ generate_date_ranges s e step,
      s ≤ w.1 ∧ w.1 < w.2 ∧ w.2 ≤ e ∧ w.2 - w.1 ≤ step ∧ (w.2 - w.1 = step ∨ w.2 = e) := by
  intro s e step
  induction s, e, step using generate_date_ranges.induct with
  | case1 s e step h ih =>
    intro hstep w hw
    rw [generate_date_ranges_eq_pos h.1 h.2, List.mem_cons] at hw
    rcases hw with hw | hw
    · subst hw
      constructor
      · exact le_refl s
      refine And.intro ?_ (And.intro ?_ (And.intro ?_ ?_))
      · simp only [lt_min_iff]
        exact And.intro (by omega) h.2
      · exact min_le_right _ _
      · have := min_le_left (s + step) e
        omega
      · rcases le_or_lt (s + step) e with hc | hc
        · left
          rw [min_eq_left hc]
          omega
        · right
          rw [min_eq_right (le_of_lt hc)]
    · have hrec := ih hstep w hw
      refine And.intro (by omega) (And.intro hrec.2.1 (And.intro hrec.2.2.1 hrec.2.2.2))
  | case2 s e step h =>
    intro hstep w hw
    rw [generate_date_ranges_eq_nil (by tauto)] at hw
    simp at hw

theorem getLast?_cons_ne_nil {α : Type} (a : α) {l : List α} (h : l ≠ []) :
    (a :: l).getLast? = l.getLast? := by
  cases l with
  | nil => exact absurd rfl h
  | cons b t => rw [List.getLast?_cons_cons]

theorem getLast?_mem {α : Type} : ∀ {l : List α} {a : α}, l.getLast? = some a → a ∈ l := by
  intro l
  induction l with
  | nil => intro a h; simp at h
  | cons x t ih =>
    intro a h
    cases t with
    | nil =>
      simp only [List.getLast?_singleton, Option.some.injEq] at h
      simp [h]
    | cons y u =>
      rw [List.getLast?_cons_cons] at h
      exact List.mem_cons_of_mem x (ih h)

theorem getLast?_isSome_of_ne_nil {α : Type} : ∀ {l : List α}, l ≠ [] → ∃ a, l.getLast? = some a := by
  intro l
  induction l with
  | nil => intro h; exact absurd rfl h
  | cons x t ih =>
    intro _
    cases t with
    | nil => exact ⟨x, rfl⟩
    | cons y u =>
      obtain ⟨a, ha⟩ := ih (by simp)
      exact ⟨a, by rw [List.getLast?_cons_cons]; exact ha⟩

theorem generate_date_ranges_ne_nil {s e step : Int} (h1 : 0 < step) (h2 : s < e) :
    generate_date_ranges s e step ≠ [] := by
  rw [generate_date_ranges_eq_pos h1 h2]
  simp

theorem generate_date_ranges_head {s e step : Int} (h1 : 0 < step) (h2 : s < e) :
    (generate_date_ranges s e step).head? = some (s, min (s + step) e) := by
  rw [generate_date_ranges_eq_pos h1 h2]
  rfl

/-- The last produced window ends exactly at the range end. -/
theorem generate_date_ranges_last :
    ∀ (s e step : Int), 0 < step → s < e →
    ∃ w, (generate_date_ranges s e step).getLast? = some w ∧ w.2 = e := by
  intro s e step
  induction s, e, step using generate_date_ranges.induct with
  | case1 s e step h ih =>
    intro hstep hlt
    rw [generate_date_ranges_eq_pos h.1 h.2]
    by_cases hc : s + step < e
    · obtain ⟨w, hw1, hw2⟩ := ih hstep hc
      refine ⟨w, ?_, hw2⟩
      rw [getLast?_cons_ne_nil _ (generate_date_ranges_ne_nil hstep hc)]
      exact hw1
    · rw [generate_date_ranges_eq_nil hc]
      exact ⟨(s, min (s + step) e), rfl, by omega⟩
  | case2 s e step h =>
    intro hstep hlt
    exact absurd (And.intro hstep hlt) h

/-- Contiguity: each window after the first starts exactly where the previous
window ends. -/
theorem generate_date_ranges_chain :
    ∀ (s e step : Int), 0 < step →
    List.Chain' (fun w1 w2 : Int × Int => w2.1 = w1.2) (generate_date_ranges s e step) := by
  intro s e step
  induction s, e, step using generate_date_ranges.induct with
  | case1 s e step h ih =>
    intro hstep
    rw [generate_date_ranges_eq_pos h.1 h.2]
    rw [List.chain'_cons']
    refine And.intro ?_ (ih hstep)
    intro y hy
    by_cases hc : s + step < e
    · rw [generate_date_ranges_head hstep hc] at hy
      simp only [Option.mem_def, Option.some.injEq] at hy
      subst hy
      simp only
      omega
    · rw [generate_date_ranges_eq_nil hc] at hy
      simp at hy
  | case2 s e step h =>
    intro hstep
    rw [generate_date_ranges_eq_nil (by tauto)]
    exact List.chain'_nil

/-- Non-overlap: the windows are pairwise ordered, each ending no later than
any later window starts. -/
theorem generate_date_ranges_pairwise :
    ∀ (s e step : Int), 0 < step →
    List.Pairwise (fun w1 w2 : Int × Int => w1.2 ≤ w2.1) (generate_date_ranges s e step) := by
  intro s e step
  induction s, e, step using generate_date_ranges.induct with
  | case1 s e step h ih =>
    intro hstep
    rw [generate_date_ranges_eq_pos h.1 h.2]
    refine List.Pairwise.cons ?_ (ih hstep)
    intro w hw
    have := (generate_date_ranges_mem (s + step) e step hstep w hw).1
    simp only
    omega
  | case2 s e step h =>
    intro hstep
    rw [generate_date_ranges_eq_nil (by tauto)]
    exact List.Pairwise.nil

/-- Coverage: a time point lies in the half-open range exactly when it lies in
one of the produced windows. -/
theorem generate_date_ranges_cover :
    ∀ (s e step : Int), 0 < step → ∀ t : Int,
    (s ≤ t ∧ t < e) ↔ ∃ w ∈ generate_date_ranges s e step, w.1 ≤ t ∧ t < w.2 := by
  intro s e step
  induction s, e, step using generate_date_ranges.induct with
  | case1 s e step h ih =>
    intro hstep t
    rw [generate_date_ranges_eq_pos h.1 h.2]
    constructor
    · intro ht
      by_cases hc : t < min (s + step) e
      · exact ⟨(s, min (s + step) e), List.mem_cons_self _ _, ht.1, hc⟩
      · have h1 : s + step ≤ t := by
          simp only [lt_min_iff, not_and_or, not_lt] at hc
          omega
        obtain ⟨w, hw, hwt⟩ := (ih hstep t).mp (And.intro h1 ht.2)
        exact ⟨w, List.mem_cons_of_mem _ hw, hwt⟩
    · intro hex
      obtain ⟨w, hw, hwt⟩ := hex
      rw [List.mem_cons] at hw
      rcases hw with hw | hw
      · subst hw
        simp only [lt_min_iff] at hwt
        exact And.intro hwt.1 hwt.2.2
      · have := (ih hstep t).mpr ⟨w, hw, hwt⟩
        omega
  | case2 s e step h =>
    intro hstep t
    rw [generate_date_ranges_eq_nil (by tauto)]
    simp only [List.not_mem_nil, false_and, exists_false, iff_false]
    intro ht
    have : ¬ s < e := by tauto
    omega

/-- Every window except the last has length exactly the step. -/
theorem generate_date_ranges_dropLast :
    ∀ (s e step : Int), 0 < step →
    ∀ w ∈ (generate_date_ranges s e step).dropLast, w.2 - w.1 = step := by
  intro s e step
  induction s, e, step using generate_date_ranges.induct with
  | case1 s e step h ih =>
    intro hstep w hw
    rw [generate_date_ranges_eq_pos h.1 h.2] at hw
    by_cases hc : s + step < e
    · have hne := generate_date_ranges_ne_nil hstep hc
      cases htl : generate_date_ranges (s + step) e step with
      | nil => exact absurd htl hne
      | cons y u =>
        rw [htl] at hw
        rw [List.dropLast_cons₂] at hw
        rw [List.mem_cons] at hw
        rcases hw with hw | hw
        · subst hw
          simp only
          rw [min_eq_left (by omega)]
          omega
        · exact ih hstep w (by rw [htl]; exact hw)
    · rw [generate_date_ranges_eq_nil hc] at hw
      simp at hw
  | case2 s e step h =>
    intro hstep w hw
    rw [generate_date_ranges_eq_nil (by tauto)] at hw
    simp at hw

theorem filter_eq_nil_of_not_any (x : String) :
    ∀ l : List CashlessRow, l.any (fun s => s.transaction_id == x) = false →
    l.filter (fun s => s.transaction_id == x) = [] := by
  intro l
  induction l with
  | nil => intro _; rfl
  | cons b m ih =>
    intro h
    simp only [List.any_cons, Bool.or_eq_false_iff] at h
    simp [List.filter_cons, h.1, ih h.2]

theorem filter_ne_nil_of_any (x : String) (l : List CashlessRow)
    (h : l.any (fun s => s.transaction_id == x) = true) :
    l.filter (fun s => s.transaction_id == x) ≠ [] := by
  simp only [List.any_eq_true] at h
  obtain ⟨s, hs, hx⟩ := h
  intro hc
  have hmem : s ∈ l.filter (fun s => s.transaction_id == x) :=
    List.mem_filter.mpr (And.intro hs hx)
  rw [hc] at hmem
  simp at hmem

/-- The dedup pass keeps, for each id, exactly the last row in its input
carrying that id. -/
theorem drop_duplicates_filter (x : String) :
    ∀ l : List CashlessRow,
    (drop_duplicates_keep_last l).filter (fun r => r.transaction_id == x)
      = lastSingleton ((l.filter (fun r => r.transaction_id == x)).getLast?) := by
  intro l
  induction l with
  | nil => rfl
  | cons r rest ih =>
    rw [drop_duplicates_keep_last]
    cases hany : rest.any (fun s => s.transaction_id == r.transaction_id) with
    | true =>
      rw [if_pos rfl]
      by_cases hx : r.transaction_id = x
      · subst hx
        have hne : rest.filter (fun s => s.transaction_id == r.transaction_id) ≠ [] :=
          filter_ne_nil_of_any _ rest hany
        rw [ih, List.filter_cons]
        rw [if_pos (by simp)]
        rw [getLast?_cons_ne_nil _ hne]
      · rw [ih, List.filter_cons]
        rw [if_neg (by simp [hx])]
    | false =>
      rw [if_neg (by simp)]
      by_cases hx : r.transaction_id = x
      · subst hx
        have hnil : rest.filter (fun s => s.transaction_id == r.transaction_id) = [] :=
          filter_eq_nil_of_not_any _ rest hany
        rw [List.filter_cons, if_pos (by simp), List.filter_cons, if_pos (by simp)]
        rw [ih, hnil]
        rfl
      · rw [List.filter_cons, if_neg (by simp [hx]), List.filter_cons, if_neg (by simp [hx])]
        exact ih

/-- In a list sorted ascending by recency, every member is bounded by the
last element. -/
theorem sorted_getLast_max :
    ∀ {m : List CashlessRow} {r : CashlessRow}, SortedRows m → m.getLast? = some r →
    ∀ s ∈ m, s.occurred_at ≤ r.occurred_at := by
  intro m
  induction m with
  | nil => intro r _ h; simp at h
  | cons a u ih =>
    intro r hs hl s hmem
    cases u with
    | nil =>
      simp only [List.getLast?_singleton, Option.some.injEq] at hl
      subst hl
      rcases List.mem_singleton.mp hmem with rfl
      exact le_refl _
    | cons b v =>
      rw [List.getLast?_cons_cons] at hl
      rcases List.pairwise_cons.mp hs with ⟨ha, hu⟩
      rcases List.mem_cons.mp hmem with hmem | hmem
      · subst hmem
        exact le_trans (ha r (getLast?_mem hl)) (le_refl _)
      · exact ih hu hl s hmem

theorem sortedRows_pair {a b : CashlessRow} (h : a.occurred_at ≤ b.occurred_at) :
    SortedRows [a, b] := by
  refine List.Pairwise.cons ?_ (List.pairwise_singleton _ _)
  intro c hc
  rcases List.mem_singleton.mp hc with rfl
  exact h

/-! ## Claim theorems -/

/-- C3: when every attempt fails with a retryable (RequestException) failure,
the page-fetch wrapper makes exactly 3 attempts, sleeps 1s, 2s, 4s
(seconds = 2^attempt), raises to the caller (result none), and makes no 4th
attempt. -/
theorem C3_retry_exhaustion (oracle : Nat → HttpResponse)
    (h : ∀ n, raisesRequestException (oracle n) = true) :
    (fetch_cashless_data_hist oracle).1 = none ∧
    (fetch_cashless_data_hist oracle).2.1 = 3 ∧
    (fetch_cashless_data_hist oracle).2.2 = [1, 2, 4] := by
  rw [fetchRetryLoop_all_fail oracle h]
  exact ⟨rfl, rfl, rfl⟩

/-- Witness for the retry-exhaustion theorem at the always-network-failing
oracle. -/
theorem C3_retry_exhaustion_witness :
    (fetch_cashless_data_hist (fun _ => HttpResponse.networkFailure)).1 = none ∧
    (fetch_cashless_data_hist (fun _ => HttpResponse.networkFailure)).2.1 = 3 ∧
    (fetch_cashless_data_hist (fun _ => HttpResponse.networkFailure)).2.2 = [1, 2, 4] :=
  C3_retry_exhaustion (fun _ => HttpResponse.networkFailure) (fun _ => rfl)

/-- C2 counterexample: a 4xx response on the first attempt does not stop the
historical fetcher — it issues 3 outbound requests, so a second request is
issued after a 4xx response, contradicting the claim. -/
theorem C2_counterexample :
    (fetch_cashless_data_hist (fun _ => HttpResponse.clientError 404)).2.1 = 3 ∧
    ¬ (fetch_cashless_data_hist (fun _ => HttpResponse.clientError 404)).2.1 ≤ 1 := by
  decide

/-- C2 amended: the code draws no transient/fatal distinction.  The backfill
fetcher retries every RequestException — network failures, 5xx and 4xx alike —
up to 3 attempts with backoff 1s, 2s, 4s and then raises; the cloud-function
fetcher issues exactly one request for any outcome and propagates any failure
without retrying. -/
theorem C2_fetch_error_classes :
    (∀ oracle : Nat → HttpResponse, (∀ n, raisesRequestException (oracle n) = true) →
      fetch_cashless_data_hist oracle = (none, 3, [1, 2, 4])) ∧
    (∀ oracle : Nat → HttpResponse, (fetch_from_endpoint oracle).2 = 1) ∧
    (∀ oracle : Nat → HttpResponse, raisesRequestException (oracle 0) = true →
      (fetch_from_endpoint oracle).1 = none) := by
  refine ⟨fetchRetryLoop_all_fail, ?_, ?_⟩
  · intro oracle
    cases h : raisesRequestException (oracle 0) <;> simp [fetch_from_endpoint, h]
  · intro oracle h
    simp [fetch_from_endpoint, h]

/-- Witness for the amended fetch-error-classes theorem at the constant-404
oracle. -/
theorem C2_fetch_error_classes_witness :
    fetch_cashless_data_hist (fun _ => HttpResponse.clientError 404) = (none, 3, [1, 2, 4]) ∧
    (fetch_from_endpoint (fun _ => HttpResponse.clientError 404)).2 = 1 ∧
    (fetch_from_endpoint (fun _ => HttpResponse.clientError 404)).1 = none :=
  ⟨C2_fetch_error_classes.1 _ (fun _ => rfl),
   C2_fetch_error_classes.2.1 _,
   C2_fetch_error_classes.2.2 _ rfl⟩

/-- C4: for range_start < range_end and step > 0 the planner yields an ordered
sequence of windows that starts at range_start, ends at range_end, is
contiguous (each window starts where the previous one ends), pairwise
non-overlapping, whose union is exactly the half-open range, where every
window except possibly the last has length exactly the step and every window
is nonempty with length at most the step. -/
theorem C4_chunk_planner (s e d : Int) (hd : 0 < d) (hse : s < e) :
    (generate_date_ranges s e d).head? = some (s, min (s + d) e) ∧
    (∃ w, (generate_date_ranges s e d).getLast? = some w ∧ w.2 = e) ∧
    List.Chain' (fun w1 w2 : Int × Int => w2.1 = w1.2) (generate_date_ranges s e d) ∧
    List.Pairwise (fun w1 w2 : Int × Int => w1.2 ≤ w2.1) (generate_date_ranges s e d) ∧
    (∀ t : Int, (s ≤ t ∧ t < e) ↔ ∃ w ∈ generate_date_ranges s e d, w.1 ≤ t ∧ t < w.2) ∧
    (∀ w ∈ (generate_date_ranges s e d).dropLast, w.2 - w.1 = d) ∧
    (∀ w ∈ generate_date_ranges s e d, w.1 < w.2 ∧ w.2 - w.1 ≤ d) :=
  ⟨generate_date_ranges_head hd hse,
   generate_date_ranges_last s e d hd hse,
   generate_date_ranges_chain s e d hd,
   generate_date_ranges_pairwise s e d hd,
   generate_date_ranges_cover s e d hd,
   generate_date_ranges_dropLast s e d hd,
   fun w hw =>
     ⟨(generate_date_ranges_mem s e d hd w hw).2.1,
      (generate_date_ranges_mem s e d hd w hw).2.2.2.1⟩⟩

/-- Witness for the chunk-planner theorem on the range 0..10 with step 7. -/
theorem C4_chunk_planner_witness :
    (generate_date_ranges 0 10 7).head? = some (0, min (0 + 7) 10) ∧
    (∃ w, (generate_date_ranges 0 10 7).getLast? = some w ∧ w.2 = 10) ∧
    List.Chain' (fun w1 w2 : Int × Int => w2.1 = w1.2) (generate_date_ranges 0 10 7) ∧
    List.Pairwise (fun w1 w2 : Int × Int => w1.2 ≤ w2.1) (generate_date_ranges 0 10 7) ∧
    (∀ t : Int, (0 ≤ t ∧ t < 10) ↔ ∃ w ∈ generate_date_ranges 0 10 7, w.1 ≤ t ∧ t < w.2) ∧
    (∀ w ∈ (generate_date_ranges 0 10 7).dropLast, w.2 - w.1 = 7) ∧
    (∀ w ∈ generate_date_ranges 0 10 7, w.1 < w.2 ∧ w.2 - w.1 ≤ 7) :=
  C4_chunk_planner 0 10 7 (by decide) (by decide)

/-- C5: the paginator starts at page 1, advances the page by 1 after each full
page, accumulates all records, and stops at the first page shorter than 100:
for an API serving any record list l it returns exactly l using exactly
l.length / 100 + 1 requests (independent of surplus fuel), and for exactly
250 records it serves pages of 100, 100, 50, returns 250 records in 3
requests, and page 4 (never requested) would be empty. -/
theorem C5_pagination_termination :
    (∀ (l : List Nat) (fuel : Nat), l.length < fuel * 100 →
      fetch_cashless_data_daily (fetchPage l) fuel = (l, l.length / 100 + 1)) ∧
    (fetchPage (List.range 250) 1).length = 100 ∧
    (fetchPage (List.range 250) 2).length = 100 ∧
    (fetchPage (List.range 250) 3).length = 50 ∧
    fetchPage (List.range 250) 4 = [] ∧
    (∀ fuel : Nat, 2 < fuel →
      fetch_cashless_data_daily (fetchPage (List.range 250)) fuel = (List.range 250, 3)) := by
  have hgen : ∀ (l : List Nat) (fuel : Nat), l.length < fuel * 100 →
      fetch_cashless_data_daily (fetchPage l) fuel = (l, l.length / 100 + 1) := by
    intro l fuel h
    unfold fetch_cashless_data_daily
    rw [paginateLoop_fetchPage fuel l [] 0 h]
    simp
  refine ⟨hgen, by decide, by decide, by decide, by decide, ?_⟩
  intro fuel hf
  have h := hgen (List.range 250) fuel (by simp [List.length_range]; omega)
  rw [h]
  simp [List.length_range]

/-- Witness for the pagination theorem on a 250-record API with surplus fuel. -/
theorem C5_pagination_termination_witness :
    fetch_cashless_data_daily (fetchPage (List.range 250)) 10 = (List.range 250, 3) :=
  C5_pagination_termination.2.2.2.2.2 10 (by decide)

/-- C6 counterexample: with two equal-recency rows for id T1 — payloads
"first" then "second" in input order — the reversed order is an admissible
result of the source's unstable sort (a permutation of the input, ascending
in the recency key), and consolidating from it keeps the first row in input
order, not the last, so the claimed last-input-order tie-break is not
guaranteed by the code. -/
theorem C6_counterexample :
    IsSortValuesResult
      [CashlessRow.mk "T1" 10 "first", CashlessRow.mk "T1" 10 "second"]
      [CashlessRow.mk "T1" 10 "second", CashlessRow.mk "T1" 10 "first"] ∧
    (consolidate_from
        [CashlessRow.mk "T1" 10 "second", CashlessRow.mk "T1" 10 "first"]).1
      = [CashlessRow.mk "T1" 10 "first"] ∧
    CashlessRow.mk "T1" 10 "first" ≠ CashlessRow.mk "T1" 10 "second" := by
  exact ⟨⟨List.Perm.swap _ _ _, sortedRows_pair (by decide)⟩, by decide, by decide⟩

/-- C6 amended: for every collection of input chunk rows and every admissible
result of the source's (unstable) ascending sort, consolidation produces
exactly one output row per distinct id — none when the id is absent — and the
surviving row is an input row with that id carrying the maximum recency
timestamp among that id's rows; which row survives among equal-maximal-recency
duplicates is not determined by the code.  With distinct timestamps the
survivor is unique: two chunks holding id T1 at recency 10 and 12 yield, for
every admissible sort result, exactly the single T1 row carrying the
recency-12 values and one dropped duplicate. -/
theorem C6_consolidator :
    (∀ (chunks : List (List CashlessRow)) (x : String) (sorted : List CashlessRow),
      IsSortValuesResult chunks.flatten sorted →
      (chunks.flatten.filter (fun s => s.transaction_id == x) = [] →
        (consolidate_from sorted).1.filter (fun s => s.transaction_id == x) = []) ∧
      (chunks.flatten.filter (fun s => s.transaction_id == x) ≠ [] →
        ∃ r, (consolidate_from sorted).1.filter (fun s => s.transaction_id == x) = [r] ∧
          r ∈ chunks.flatten ∧ r.transaction_id = x ∧
          (∀ s ∈ chunks.flatten, s.transaction_id = x → s.occurred_at ≤ r.occurred_at))) ∧
    (∀ sorted : List CashlessRow,
      IsSortValuesResult
        ([[CashlessRow.mk "T1" 10 "morning"], [CashlessRow.mk "T1" 12 "noon"]] :
          List (List CashlessRow)).flatten sorted →
      consolidate_from sorted = ([CashlessRow.mk "T1" 12 "noon"], 1)) := by
  constructor
  · intro chunks x sorted hsv
    obtain ⟨hperm, hsorted⟩ := hsv
    have hout : (consolidate_from sorted).1 = drop_duplicates_keep_last sorted := rfl
    have hpermf : List.Perm (sorted.filter (fun s => s.transaction_id == x))
        (chunks.flatten.filter (fun s => s.transaction_id == x)) := hperm.filter _
    constructor
    · intro hnil
      rw [hout, drop_duplicates_filter]
      have hsnil : sorted.filter (fun s => s.transaction_id == x) = [] := by
        rw [hnil] at hpermf
        exact List.Perm.eq_nil hpermf
      rw [hsnil]
      rfl
    · intro hne
      have hsne : sorted.filter (fun s => s.transaction_id == x) ≠ [] := by
        intro hc
        rw [hc] at hpermf
        exact hne (List.Perm.eq_nil hpermf.symm)
      obtain ⟨r, hr⟩ := getLast?_isSome_of_ne_nil hsne
      have hrmemf : r ∈ sorted.filter (fun s => s.transaction_id == x) := getLast?_mem hr
      have hrmem : r ∈ sorted := (List.mem_filter.mp hrmemf).1
      have hrid : (r.transaction_id == x) = true := (List.mem_filter.mp hrmemf).2
      refine ⟨r, ?_, ?_, ?_, ?_⟩
      · rw [hout, drop_duplicates_filter, hr]
        rfl
      · exact hperm.mem_iff.mp hrmem
      · simpa using hrid
      · intro s hs hsx
        have hsmem : s ∈ chunks.flatten.filter (fun t => t.transaction_id == x) :=
          List.mem_filter.mpr (And.intro hs (by simp [hsx]))
        have hsmem2 : s ∈ sorted.filter (fun t => t.transaction_id == x) :=
          hpermf.mem_iff.mpr hsmem
        have hsorted2 : SortedRows (sorted.filter (fun t => t.transaction_id == x)) :=
          List.Pairwise.filter _ hsorted
        exact sorted_getLast_max hsorted2 hr s hsmem2
  · intro sorted hsv
    obtain ⟨hperm, hsorted⟩ := hsv
    have hperm2 : List.Perm sorted
        [CashlessRow.mk "T1" 10 "morning", CashlessRow.mk "T1" 12 "noon"] := hperm
    have hlen : sorted.length = 2 := hperm2.length_eq
    cases sorted with
    | nil => simp at hlen
    | cons u tail =>
      cases tail with
      | nil => simp at hlen
      | cons v rest =>
        cases rest with
        | cons w t => simp at hlen
        | nil =>
          have hu : u ∈ [CashlessRow.mk "T1" 10 "morning", CashlessRow.mk "T1" 12 "noon"] :=
            hperm2.mem_iff.mp (List.mem_cons_self u [v])
          rcases List.mem_cons.mp hu with hu | hu
          · subst hu
            have hv : List.Perm [v] [CashlessRow.mk "T1" 12 "noon"] :=
              (List.perm_cons _).mp hperm2
            have hvb : v = CashlessRow.mk "T1" 12 "noon" :=
              List.mem_singleton.mp (hv.mem_iff.mp (List.mem_singleton_self v))
            subst hvb
            decide
          · rcases List.mem_singleton.mp hu with rfl
            have ha : CashlessRow.mk "T1" 10 "morning"
                ∈ [CashlessRow.mk "T1" 12 "noon", v] :=
              hperm2.mem_iff.mpr (List.mem_cons_self _ _)
            rcases List.mem_cons.mp ha with ha | ha
            · exact absurd ha (by decide)
            · rcases List.mem_singleton.mp ha with rfl
              rcases List.pairwise_cons.mp hsorted with ⟨hb, _⟩
              have hle := hb _ (List.mem_singleton_self _)
              exact absurd hle (by decide)

/-- Witness for the amended consolidator theorem, supplying the ascending
order of the two-chunk T1 example as the admissible sort result. -/
theorem C6_consolidator_witness :
    (∃ r, (consolidate_from [CashlessRow.mk "T1" 10 "morning",
            CashlessRow.mk "T1" 12 "noon"]).1.filter
          (fun s => s.transaction_id == "T1") = [r] ∧
      r ∈ ([[CashlessRow.mk "T1" 10 "morning"],
            [CashlessRow.mk "T1" 12 "noon"]] : List (List CashlessRow)).flatten ∧
      r.transaction_id = "T1" ∧
      (∀ s ∈ ([[CashlessRow.mk "T1" 10 "morning"],
               [CashlessRow.mk "T1" 12 "noon"]] : List (List CashlessRow)).flatten,
        s.transaction_id = "T1" → s.occurred_at ≤ r.occurred_at)) ∧
    consolidate_from [CashlessRow.mk "T1" 10 "morning", CashlessRow.mk "T1" 12 "noon"]
      = ([CashlessRow.mk "T1" 12 "noon"], 1) :=
  ⟨(C6_consolidator.1 [[CashlessRow.mk "T1" 10 "morning"],
        [CashlessRow.mk "T1" 12 "noon"]] "T1"
      [CashlessRow.mk "T1" 10 "morning", CashlessRow.mk "T1" 12 "noon"]
      ⟨List.Perm.refl _, sortedRows_pair (by decide)⟩).2 (by decide),
   C6_consolidator.2
      [CashlessRow.mk "T1" 10 "morning", CashlessRow.mk "T1" 12 "noon"]
      ⟨List.Perm.refl _, sortedRows_pair (by decide)⟩⟩

/-- C7: schema inference gives explicit configuration priority over value
sniffing — in both schema builders a field listed in the table's explicit
string set is typed STRING for every dtype the batch may exhibit, so a
digit-string column configured as string can never come out INTEGER or FLOAT;
concretely the products upc_code column is STRING even with an integer dtype. -/
theorem C7_schema_precedence :
    (∀ (table col : String) (dtype : PandasDType),
      col ∈ TABLE_STRING_COLUMNS_CF table →
      build_bq_field_type_cf table col dtype = "STRING") ∧
    (∀ (table col : String) (dtype : PandasDType) (iso_like : Bool),
      col ∈ TABLE_STRING_COLUMNS table →
      build_bq_field_type table col dtype iso_like = "STRING") ∧
    build_bq_field_type_cf "products" "upc_code" PandasDType.int64 = "STRING" ∧
    build_bq_schema_cf [("upc_code", PandasDType.int64)] "products"
      = [("upc_code", "STRING")] ∧
    build_bq_schema [("upc_code", PandasDType.int64, false)] "products"
      = [("upc_code", "STRING")] := by
  refine ⟨?_, ?_, by decide, by decide, by decide⟩
  · intro table col dtype h
    simp [build_bq_field_type_cf, h]
  · intro table col dtype iso_like h
    simp [build_bq_field_type, h]

/-- Witness for the schema-precedence theorem at the cashless transaction_id
column with an integer dtype. -/
theorem C7_schema_precedence_witness :
    build_bq_field_type_cf "cashless" "transaction_id" PandasDType.int64 = "STRING" ∧
    build_bq_field_type "cashless" "transaction_id" PandasDType.int64 false = "STRING" :=
  ⟨C7_schema_precedence.1 "cashless" "transaction_id" PandasDType.int64 (by decide),
   C7_schema_precedence.2.1 "cashless" "transaction_id" PandasDType.int64 false (by decide)⟩

/-- C8 counterexample: invoked at 01:00 UTC of day 1 (now = 90000s) with no
explicit date, the code computes the window (3600, 90000) — now minus 24h to
now — while the claim's window, yesterday 00:00 UTC to today 00:00 UTC, is
(0, 86400); the two differ. -/
theorem C8_counterexample :
    compute_daily_window none 90000 = (3600, 90000) ∧
    spec_daily_window 90000 = (0, 86400) ∧
    compute_daily_window none 90000 ≠ spec_daily_window 90000 := by
  refine ⟨by decide, by decide, by decide⟩

/-- C8 amended: with an explicit date the window is exactly date to date plus
one day; with no explicit date the window is exactly now minus 24 hours to
now — a sliding 24-hour window anchored at the invocation instant, which
coincides with the claimed yesterday-midnight-to-today-midnight window only
when the function is invoked exactly at 00:00 UTC. -/
theorem C8_daily_window (d now : Int) :
    compute_daily_window (some d) now = (d, d + 86400) ∧
    compute_daily_window none now = (now - 86400, now) ∧
    (now % 86400 = 0 → compute_daily_window none now = spec_daily_window now) := by
  refine ⟨rfl, ?_, ?_⟩
  · show (now - 86400, now - 86400 + 86400) = (now - 86400, now)
    rw [Int.sub_add_cancel]
  · intro h
    simp only [compute_daily_window, spec_daily_window, midnightUTC, h, Prod.mk.injEq]
    constructor <;> omega

/-- Witness for the amended daily-window theorem at a midnight invocation. -/
theorem C8_daily_window_witness :
    compute_daily_window (some 86400) 90000 = (86400, 172800) ∧
    compute_daily_window none 86400 = (0, 86400) ∧
    compute_daily_window none 86400 = spec_daily_window 86400 :=
  ⟨(C8_daily_window 86400 90000).1,
   (C8_daily_window 86400 86400).2.1,
   (C8_daily_window 86400 86400).2.2 (by decide)⟩

/-- C9: an upsert batch that lacks the configured id column after field-name
sanitization raises the missing-id-column error with an empty warehouse
action trace — no table creation, no staging load, no MERGE — in both upsert
implementations. -/
theorem C9_missing_id_no_side_effects (cols : List String) (table idc : String)
    (merge_succeeds : Bool) :
    (sanitize_name idc ∉ sanitize_columns cols →
      upload_dataframe_to_bigquery cols table idc merge_succeeds
        = (Except.error "missing id column", [])) ∧
    (idc ∉ sanitize_columns cols →
      upload_and_merge_table cols table idc merge_succeeds
        = (Except.error "missing id column", [])) := by
  constructor
  · intro h
    simp [upload_dataframe_to_bigquery, h]
  · intro h
    simp [upload_and_merge_table, h]

/-- Witness for the missing-id theorem on a batch whose only column is value. -/
theorem C9_missing_id_no_side_effects_witness :
    upload_dataframe_to_bigquery ["value"] "cashless" "transaction_id" true
      = (Except.error "missing id column", []) ∧
    upload_and_merge_table ["value"] "cashless" "transaction_id" true
      = (Except.error "missing id column", []) :=
  ⟨(C9_missing_id_no_side_effects ["value"] "cashless" "transaction_id" true).1 (by decide),
   (C9_missing_id_no_side_effects ["value"] "cashless" "transaction_id" true).2 (by decide)⟩

/-- C1 counterexample: when the MERGE raises, the cloud-function upsert
propagates the error with a trace that contains the MERGE but not the
staging-table deletion — the deletion is skipped, contradicting the claim
that cleanup runs regardless of MERGE failure. -/
theorem C1_counterexample :
    upload_dataframe_to_bigquery ["transaction_id", "value"] "cashless"
        "transaction_id" false
      = (Except.error "merge failed",
         [BQAction.createTableIfNotExists "cashless",
          BQAction.loadStagingTruncate "temp_cashless",
          BQAction.mergeInto "cashless" "temp_cashless"]) ∧
    BQAction.deleteTable "temp_cashless"
      ∉ (upload_dataframe_to_bigquery ["transaction_id", "value"] "cashless"
          "transaction_id" false).2 := by
  refine ⟨rfl, by decide⟩

/-- C1 amended: in both upsert implementations the staging table is deleted
(as the final action) only when the MERGE succeeds; when the MERGE raises,
the error is propagated and the staging-table deletion is skipped, so a
failed MERGE leaves the staging table behind. -/
theorem C1_staging_cleanup (cols : List String) (table idc : String)
    (hid : sanitize_name idc ∈ sanitize_columns cols)
    (hid2 : idc ∈ sanitize_columns cols) :
    ((upload_dataframe_to_bigquery cols table idc true).2.getLast?
        = some (BQAction.deleteTable ("temp_" ++ table)) ∧
     (upload_dataframe_to_bigquery cols table idc false).1 = Except.error "merge failed" ∧
     BQAction.deleteTable ("temp_" ++ table)
       ∉ (upload_dataframe_to_bigquery cols table idc false).2) ∧
    ((upload_and_merge_table cols table idc true).2.getLast?
        = some (BQAction.deleteTable ("temp_" ++ table)) ∧
     (upload_and_merge_table cols table idc false).1 = Except.error "merge failed" ∧
     BQAction.deleteTable ("temp_" ++ table)
       ∉ (upload_and_merge_table cols table idc false).2) := by
  constructor
  · refine ⟨?_, ?_, ?_⟩
    · simp [upload_dataframe_to_bigquery, hid]
    · simp [upload_dataframe_to_bigquery, hid]
    · simp [upload_dataframe_to_bigquery, hid]
  · refine ⟨?_, ?_, ?_⟩
    · simp [upload_and_merge_table, hid2]
    · simp [upload_and_merge_table, hid2]
    · simp [upload_and_merge_table, hid2]

/-- Witness for the staging-cleanup theorem on a two-column cashless batch. -/
theorem C1_staging_cleanup_witness :
    ((upload_dataframe_to_bigquery ["transaction_id", "value"] "cashless"
          "transaction_id" true).2.getLast?
        = some (BQAction.deleteTable "temp_cashless") ∧
     (upload_dataframe_to_bigquery ["transaction_id", "value"] "cashless"
          "transaction_id" false).1 = Except.error "merge failed" ∧
     BQAction.deleteTable "temp_cashless"
       ∉ (upload_dataframe_to_bigquery ["transaction_id", "value"] "cashless"
            "transaction_id" false).2) ∧
    ((upload_and_merge_table ["transaction_id", "value"] "cashless"
          "transaction_id" true).2.getLast?
        = some (BQAction.deleteTable "temp_cashless") ∧
     (upload_and_merge_table ["transaction_id", "value"] "cashless"
          "transaction_id" false).1 = Except.error "merge failed" ∧
     BQAction.deleteTable "temp_cashless"
       ∉ (upload_and_merge_table ["transaction_id", "value"] "cashless"
            "transaction_id" false).2) :=
  C1_staging_cleanup ["transaction_id", "value"] "cashless" "transaction_id"
    (by decide) (by decide)

/-- C10: saving an empty fetch result writes no artifact file, and since the
artifact file's existence is the only skip signal, a chunk whose fetch was
empty is fetched again on the next run (and on every later run, the store
being unchanged). -/
theorem C10_empty_chunk_refetch (existing : List String) (s e : Nat) :
    save_data_as_csv [] s e = [] ∧
    (chunk_filename s e ∈ existing →
      backfill_chunk existing [] s e = (false, [])) ∧
    (chunk_filename s e ∉ existing →
      backfill_chunk existing [] s e = (true, []) ∧
      backfill_chunk (existing ++ (backfill_chunk existing [] s e).2) [] s e
        = (true, [])) := by
  refine ⟨rfl, ?_, ?_⟩
  · intro h
    simp [backfill_chunk, h]
  · intro h
    have h1 : backfill_chunk existing [] s e = (true, []) := by
      simp [backfill_chunk, h, save_data_as_csv]
    refine ⟨h1, ?_⟩
    rw [h1]
    simp [backfill_chunk, h, save_data_as_csv]

/-- Witness for the empty-chunk theorem with an empty artifact store and the
window 0..7. -/
theorem C10_empty_chunk_refetch_witness :
    save_data_as_csv [] 0 7 = [] ∧
    backfill_chunk [] [] 0 7 = (true, []) ∧
    backfill_chunk ([] ++ (backfill_chunk [] [] 0 7).2) [] 0 7 = (true, []) :=
  ⟨(C10_empty_chunk_refetch [] 0 7).1,
   ((C10_empty_chunk_refetch [] 0 7).2.2 (by decide)).1,
   ((C10_empty_chunk_refetch [] 0 7).2.2 (by decide)).2⟩
